import Mathlib

/-!
Shallow embedding of `src/textual/devtools/client.py`: the devtools
log-shipping client (session lifecycle, bounded outbound queue with
spillover accounting, sender/listener loops, segment encoder), together
with theorems settling the specification claims about it.

Python-level conventions of the embedding:
* `asyncio.Queue` is a bounded FIFO list; `put_nowait` raises `QueueFull`
  (modelled as `none`) iff the queue holds `maxsize` items.
* Exceptions are modelled explicitly: a function body that may raise
  returns an `Except`/product with an error component; `try/except`
  is the corresponding match.
* `aiohttp.ClientSession` and `ClientWebSocketResponse` are modelled by
  their only observable used in this file: the `closed` flag.
* JSON values received from the wire are modelled by an inductive `Json`;
  a TEXT websocket frame carries `Option Json` (`none` = a body that
  `json.loads` rejects).
-/

/-- Model of a JSON value as handled by `json.loads` in `update_console`.
Strings and numbers suffice for the payloads this client inspects;
an object is an association list of fields. -/
inductive Json where
  | null : Json
  | num (n : Nat) : Json
  | str (s : String) : Json
  | obj (fields : List (String × Json)) : Json

/-- Lookup `d[key]` on a parsed JSON object: `some` the first binding, `none`
when the key is missing (Python raises `KeyError`) or the value is not
an object (Python raises `TypeError`). -/
def Json.lookup : Json → String → Option Json
  | .obj fields, key => (fields.find? (fun f => f.1 == key)).map (·.2)
  | _, _ => none

/-- The Python exceptions that can escape the listener body:
`jsonDecodeError` from `json.loads` on an undecodable body, `keyError`
from a failed `d[key]` lookup (covering both `KeyError` and `TypeError`). -/
inductive PyError where
  | jsonDecodeError : PyError
  | keyError : PyError
deriving DecidableEq, Repr

/-- Model of `rich.segment.Segment` at the interface the client uses:
an immutable record of a text (as its codepoints) and an optional style
(as the codepoints of its style description). -/
structure Segment where
  text : List Nat
  style : Option (List Nat)
deriving DecidableEq, Repr

/-!  ## Model of `pickle.dumps(_, protocol=3)` / `pickle.loads`

The Python standard library pickle is not part of this repository; it
is modelled at its documented interface: a stable injective serialization
of `list[Segment]` into bytes, with `pickle.loads` as its exact left
inverse.  The concrete byte format below (self-delimiting unary-coded
naturals) stands in for pickle protocol 3; every emitted byte is `0` or
`1`, hence a valid byte (< 256) for the base64 layer. -/

/-- Self-delimiting byte encoding of one natural number. -/
def encNat (n : Nat) : List Nat :=
  List.replicate n 1 ++ [0]

/-- Inverse of `encNat`: strips one encoded natural off the stream. -/
def decNat : List Nat → Option (Nat × List Nat)
  | 0 :: rest => some (0, rest)
  | 1 :: rest => (decNat rest).map (fun p => (p.1 + 1, p.2))
  | _ => none

/-- Length-prefixed encoding of a list, given an encoder for elements. -/
def encListBy (enc : α → List Nat) (xs : List α) : List Nat :=
  encNat xs.length ++ xs.flatMap enc

/-- Reads exactly `n` elements off the stream with the given decoder. -/
def decCount (dec : List Nat → Option (α × List Nat)) :
    Nat → List Nat → Option (List α × List Nat)
  | 0, bs => some ([], bs)
  | n + 1, bs =>
    (dec bs).bind (fun p =>
      (decCount dec n p.2).map (fun q => (p.1 :: q.1, q.2)))

/-- Inverse of `encListBy`. -/
def decListBy (dec : List Nat → Option (α × List Nat))
    (bs : List Nat) : Option (List α × List Nat) :=
  (decNat bs).bind (fun p => decCount dec p.1 p.2)

/-- Byte encoding of one `Segment`. -/
def encSegment (s : Segment) : List Nat :=
  encListBy encNat s.text ++
    (match s.style with
     | none => [0]
     | some st => 1 :: encListBy encNat st)

/-- Inverse of `encSegment`. -/
def decSegment (bs : List Nat) : Option (Segment × List Nat) :=
  (decListBy decNat bs).bind (fun p =>
    match p.2 with
    | 0 :: rest => some (⟨p.1, none⟩, rest)
    | 1 :: rest =>
      (decListBy decNat rest).map (fun q => (⟨p.1, some q.1⟩, q.2))
    | _ => none)

/-- Model of `pickle.dumps(segments, protocol=3)`. -/
def pickle_dumps (segments : List Segment) : List Nat :=
  encListBy encSegment segments

/-- Model of `pickle.loads`: succeeds exactly on a full valid pickle. -/
def pickle_loads (bs : List Nat) : Option (List Segment) :=
  (decListBy decSegment bs).bind (fun p =>
    if p.2 = [] then some p.1 else none)

/-!  ## Model of `base64.b64encode` / `base64.b64decode` (RFC 4648)

`base64` is standard-library code; it is embedded concretely: three bytes
become four alphabet characters, a final group of one or two bytes is
padded with `=`. -/

/-- The base64 alphabet. -/
def b64alphabet : List Char :=
  "ABCDEFGHIJKLMNOPQRSTUVWXYZabcdefghijklmnopqrstuvwxyz0123456789+/".toList

/-- Character for a six-bit value. -/
def b64chr (i : Nat) : Char := b64alphabet.getD i 'A'

/-- Six-bit value of an alphabet character (64 for a non-alphabet one). -/
def b64val (c : Char) : Nat :=
  match b64alphabet.findIdx? (fun a => a == c) with
  | some i => i
  | none => 64

/-- Model of `base64.b64encode` on a byte list (each byte < 256). -/
def b64encode : List Nat → List Char
  | [] => []
  | [a] => [b64chr (a / 4), b64chr (a % 4 * 16), '=', '=']
  | [a, b] => [b64chr (a / 4), b64chr (a % 4 * 16 + b / 16),
               b64chr (b % 16 * 4), '=']
  | a :: b :: c :: rest =>
    b64chr (a / 4) :: b64chr (a % 4 * 16 + b / 16) ::
    b64chr (b % 16 * 4 + c / 64) :: b64chr (c % 64) :: b64encode rest

/-- Model of `base64.b64decode`: four characters back to a byte group;
`none` on input whose length is not a multiple of four. -/
def b64decode : List Char → Option (List Nat)
  | [] => some []
  | w :: x :: y :: z :: rest =>
    if y = '=' ∧ z = '=' ∧ rest = [] then
      some [b64val w * 4 + b64val x / 16]
    else if z = '=' ∧ rest = [] then
      some [b64val w * 4 + b64val x / 16,
            b64val x % 16 * 16 + b64val y / 4]
    else
      (b64decode rest).map (fun tail =>
        (b64val w * 4 + b64val x / 16) ::
        (b64val x % 16 * 16 + b64val y / 4) ::
        (b64val y % 4 * 64 + b64val z) :: tail)
  | _ => none

/-- Model of `DevtoolsClient._encode_segments`: pickle with protocol 3, base64
encode, decode the bytes as a UTF-8 string. -/
def _encode_segments (segments : List Segment) : String :=
  ⟨b64encode (pickle_dumps segments)⟩

/-- Modelled from the spec: the decoder lives in the devtools server,
which is not part of this repository; §4.2 fixes it as the inverse path
"base64-decode then unpickle". -/
def decode_segments (s : String) : Option (List Segment) :=
  (b64decode s.toList).bind pickle_loads

/-!  ## Model of `asyncio.Queue` -/

/-- A bounded FIFO queue (`asyncio.Queue(maxsize=...)` with `maxsize > 0`). -/
structure PyQueue (α : Type) where
  maxsize : Nat
  items : List α
deriving DecidableEq, Repr

/-- Model of `Queue.qsize()`. -/
def PyQueue.qsize (q : PyQueue α) : Nat := q.items.length

/-- Model of `Queue.put_nowait(x)`: `none` models a raised `QueueFull`. -/
def PyQueue.put_nowait (q : PyQueue α) (x : α) : Option (PyQueue α) :=
  if q.items.length < q.maxsize then
    some { q with items := q.items ++ [x] }
  else none

/-- Model of `await Queue.get()`: `none` models a get that blocks (empty queue). -/
def PyQueue.get : PyQueue α → Option (α × PyQueue α)
  | ⟨_, []⟩ => none
  | ⟨m, x :: rest⟩ => some (x, ⟨m, rest⟩)

/-!  ## The devtools client -/

/-- Constant `DEFAULT_PORT` from the source. -/
def DEFAULT_PORT : Nat := 8081

/-- Constant `WEBSOCKET_CONNECT_TIMEOUT` from the source (seconds). -/
def WEBSOCKET_CONNECT_TIMEOUT : Nat := 3

/-- Constant `LOG_QUEUE_MAXSIZE` from the source. -/
def LOG_QUEUE_MAXSIZE : Nat := 512

/-- The payload of a `client_log` message built by `log`. -/
structure LogPayload where
  timestamp : Nat
  path : String
  line_number : Nat
  encoded_segments : String
deriving DecidableEq, Repr

/-- The JSON strings the producer side enqueues (`json.dumps` is
injective on these two distinct envelope shapes, so they are kept
structured). -/
inductive OutMessage where
  | client_log (payload : LogPayload)
  | client_spillover (spillover : Nat)
deriving DecidableEq, Repr

/-- An element of `log_queue : Queue[str | Type[ClientShutdown]]`. -/
inductive QueueItem where
  | msg (m : OutMessage)
  | shutdown
deriving DecidableEq, Repr

/-- Model of `aiohttp.ClientSession` at the interface used here. -/
structure ClientSession where
  closed : Bool
deriving DecidableEq, Repr

/-- Model of `aiohttp.ClientWebSocketResponse` at the interface used here. -/
structure ClientWebSocketResponse where
  closed : Bool
deriving DecidableEq, Repr

/-- An inbound websocket message as seen by `update_console`:
a TEXT frame carrying the result of `json.loads` on its body (`none`
when the body is undecodable), or a frame of any other type. -/
inductive WSMessage where
  | text (body : Option Json)
  | nonText

/-- The mutable state of a `DevtoolsClient` (plus the state of its console:
record buffer and dimensions). `log_queue_task`/`update_console_task`
are `true` while the corresponding task is spawned and not yet joined. -/
structure DevtoolsClient where
  session : Option ClientSession
  websocket : Option ClientWebSocketResponse
  log_queue : Option (PyQueue QueueItem)
  log_queue_task : Bool
  update_console_task : Bool
  consoleWidth : Json
  consoleHeight : Json
  consoleBuffer : List Segment
  spillover : Nat

/-- Model of `DevtoolsClient.__init__`: no session, websocket, queue or task;
spillover 0.  The initial console dimensions are those of a fresh
`Console(file=StringIO())`. -/
def DevtoolsClient.init : DevtoolsClient :=
  { session := none, websocket := none, log_queue := none,
    log_queue_task := false, update_console_task := false,
    consoleWidth := Json.num 80, consoleHeight := Json.num 25,
    consoleBuffer := [], spillover := 0 }

/-- Model of `DevtoolsClient.connect`, with the outcome of
`session.ws_connect(...)` supplied as `wsOk` (the network is external to
the program). Mirrors the source order: `self.session` and
`self.log_queue` are assigned before the websocket attempt; on failure
`DevtoolsConnectionError` is raised (second component `true`) and no
task is spawned. -/
def DevtoolsClient.connect (c : DevtoolsClient) (wsOk : Bool) :
    DevtoolsClient × Bool :=
  let c1 := { c with
    session := some { closed := false },
    log_queue := some { maxsize := LOG_QUEUE_MAXSIZE, items := [] } }
  if wsOk then
    ({ c1 with websocket := some { closed := false },
               log_queue_task := true, update_console_task := true },
     false)
  else (c1, true)

/-- The `try:` block of `log` with the exception made explicit:
`Except.error` is a `QueueFull` escaping the block, carrying the state
at raise time (the queue is mutated in place in the source). The
spillover notice is attempted only after a successful enqueue and only
when `spillover > 0` and `qsize() < LOG_QUEUE_MAXSIZE`. -/
def DevtoolsClient.logTry (c : DevtoolsClient) (message : OutMessage) :
    Except DevtoolsClient DevtoolsClient :=
  match c.log_queue with
  | none => .ok c
  | some q =>
    match q.put_nowait (.msg message) with
    | none => .error c
    | some q1 =>
      let c1 := { c with log_queue := some q1 }
      if c.spillover > 0 ∧ q1.qsize < LOG_QUEUE_MAXSIZE then
        match q1.put_nowait (.msg (.client_spillover c.spillover)) with
        | none => .error c1
        | some q2 => .ok { c1 with log_queue := some q2, spillover := 0 }
      else .ok c1

/-- Model of `DevtoolsClient.log`: renders `objects` into the record
buffer, atomically extracts-and-clears the buffer, encodes the segments,
builds the `client_log` message, then runs the `try/except QueueFull`
block. `objects` is the segment list the console renders for the printed
values; `now` is `int(datetime.datetime.utcnow().timestamp())`. -/
def DevtoolsClient.log (c : DevtoolsClient) (objects : List Segment)
    (path : String) (lineno : Nat) (now : Nat) : DevtoolsClient :=
  let segments := c.consoleBuffer ++ objects
  let c0 := { c with consoleBuffer := [] }
  let message := OutMessage.client_log
    { timestamp := now, path := path, line_number := lineno,
      encoded_segments := _encode_segments segments }
  match c0.logTry message with
  | .ok c' => c'
  | .error c' => { c' with spillover := c'.spillover + 1 }

/-- Model of `DevtoolsClient.is_connected`. -/
def DevtoolsClient.is_connected (c : DevtoolsClient) : Bool :=
  match c.session, c.websocket with
  | some session, some websocket => !(session.closed || websocket.closed)
  | _, _ => false

/-- One full run of the `send_queued_logs` loop over the items the queue
delivers in FIFO order: each string item is written to the websocket
with `send_str`; dequeuing `ClientShutdown` breaks the loop without
writing it. Returns what was written, in order. -/
def send_queued_logs : List QueueItem → List OutMessage
  | [] => []
  | .shutdown :: _ => []
  | .msg m :: rest => m :: send_queued_logs rest

/-- The queue contents left behind once the sender has consumed
everything up to and including the first `ClientShutdown`. -/
def drainRemainder : List QueueItem → List QueueItem
  | [] => []
  | .shutdown :: rest => rest
  | .msg _ :: rest => drainRemainder rest

/-- Model of `DevtoolsClient.disconnect`: phase 1 (`_stop_log_queue_processing`)
puts `ClientShutdown` on the queue with a blocking `put` and awaits the
sender task; phase 2 (`_stop_incoming_message_processing`) closes the
websocket, awaits the listener task and closes the session. Returns the
updated client and the messages the sender wrote before exiting. -/
def DevtoolsClient.disconnect (c : DevtoolsClient) :
    DevtoolsClient × List OutMessage :=
  let written := match c.log_queue with
    | some q => send_queued_logs (q.items ++ [.shutdown])
    | none => []
  ({ c with
      log_queue := c.log_queue.map
        (fun q => { q with items := drainRemainder (q.items ++ [.shutdown]) }),
      log_queue_task := false,
      websocket := c.websocket.map (fun w => { w with closed := true }),
      update_console_task := false,
      session := c.session.map (fun s => { s with closed := true }) },
   written)

/-- One iteration of the `update_console` loop body on one received
message. Returns the updated client and `some e` when exception `e`
escapes the body (killing the task). As in the source,
`self.console.width` is assigned before `payload["height"]` is read. -/
def DevtoolsClient.processMessage (c : DevtoolsClient) :
    WSMessage → DevtoolsClient × Option PyError
  | .nonText => (c, none)
  | .text none => (c, some .jsonDecodeError)
  | .text (some j) =>
    match j.lookup "type" with
    | none => (c, some .keyError)
    | some t =>
      match t with
      | .str s =>
        if s = "server_info" then
          match j.lookup "payload" with
          | none => (c, some .keyError)
          | some payload =>
            match payload.lookup "width" with
            | none => (c, some .keyError)
            | some w =>
              let c1 := { c with consoleWidth := w }
              match payload.lookup "height" with
              | none => (c1, some .keyError)
              | some hgt => ({ c1 with consoleHeight := hgt }, none)
        else (c, none)
      | _ => (c, none)

/-- The `update_console` task: iterates the loop body over the inbound
messages until the socket closes (list exhausted) or an exception
escapes the body. Returns the final client and the escaping exception,
if any. -/
def DevtoolsClient.update_console (c : DevtoolsClient) :
    List WSMessage → DevtoolsClient × Option PyError
  | [] => (c, none)
  | m :: rest =>
    match c.processMessage m with
    | (c', none) => c'.update_console rest
    | (c', some e) => (c', some e)

/-!  ## Derived observations and concrete states used by the theorems -/

/-- Iterates `n` successive `log` calls with the same arguments. -/
def logN (objects : List Segment) (path : String) (lineno now : Nat)
    (c : DevtoolsClient) : Nat → DevtoolsClient
  | 0 => c
  | n + 1 => (logN objects path lineno now c n).log objects path lineno now

/-- Successive producer-side `put_nowait` calls, each failure absorbed
(as `log` absorbs `QueueFull`). -/
def putAll (q : PyQueue α) : List α → PyQueue α
  | [] => q
  | x :: xs =>
    match q.put_nowait x with
    | some q' => putAll q' xs
    | none => putAll q xs

/-- The `client_log` record a `log` call enqueues: its segments are the
buffered console segments followed by those rendered for `objects`. -/
def logMsgItem (c : DevtoolsClient) (objects : List Segment)
    (path : String) (lineno now : Nat) : QueueItem :=
  .msg (.client_log
    { timestamp := now, path := path, line_number := lineno,
      encoded_segments := _encode_segments (c.consoleBuffer ++ objects) })

/-- Whether a queue element is a `client_spillover` notice. -/
def isSpilloverItem : QueueItem → Bool
  | .msg (.client_spillover _) => true
  | _ => false

/-- Number of spillover-notice records currently in the log queue. -/
def spilloverNoticeCount (c : DevtoolsClient) : Nat :=
  match c.log_queue with
  | some q => q.items.countP (fun i => isSpilloverItem i)
  | none => 0

/-- Observes `qsize()` of the log queue, when one exists. -/
def qsizeOf (c : DevtoolsClient) : Option Nat :=
  c.log_queue.map (fun q => q.qsize)

/-- A fixed `client_log` record used in concrete scenarios. -/
def dummyMsg : OutMessage :=
  .client_log { timestamp := 0, path := "", line_number := 0,
                encoded_segments := "" }

/-- A client straight after a successful `connect()`. -/
def freshClient : DevtoolsClient := (DevtoolsClient.init.connect true).1

/-- A connected client whose queue holds `items` and whose spillover
counter is `sp`. -/
def withQueue (c : DevtoolsClient) (items : List QueueItem) (sp : Nat) :
    DevtoolsClient :=
  { c with
      log_queue := some { maxsize := LOG_QUEUE_MAXSIZE, items := items },
      spillover := sp }

/-- A connected client whose queue has filled to capacity. -/
def fullQueueClient : DevtoolsClient :=
  { freshClient with
      log_queue := some { maxsize := LOG_QUEUE_MAXSIZE,
                          items := List.replicate 512 (.msg dummyMsg) } }

/-- A connected client that reached capacity with one record dropped
(`spillover = 1`), after the sender drained exactly one slot. -/
def drainedOnceClient : DevtoolsClient :=
  { freshClient with
      log_queue := some { maxsize := LOG_QUEUE_MAXSIZE,
                          items := List.replicate 511 (.msg dummyMsg) },
      spillover := 1 }

/-- A well-formed `server_info` frame with width 100 and height 40. -/
def serverInfoFrame : WSMessage :=
  .text (some (.obj [("type", .str "server_info"),
                     ("payload", .obj [("width", .num 100),
                                       ("height", .num 40)])]))

/-!  ## Round-trip of the pickle model -/

theorem decNat_encNat (n : Nat) (rest : List Nat) :
    decNat (encNat n ++ rest) = some (n, rest) := by
  induction n with
  | zero => rfl
  | succ n ih =>
    simp only [encNat, List.replicate_succ, List.cons_append, decNat,
      List.append_eq] at *
    rw [ih]
    rfl

theorem decCount_encBy
    (enc : α → List Nat) (dec : List Nat → Option (α × List Nat))
    (h : ∀ x rest, dec (enc x ++ rest) = some (x, rest))
    (xs : List α) (rest : List Nat) :
    decCount dec xs.length (xs.flatMap enc ++ rest) = some (xs, rest) := by
  induction xs with
  | nil => rfl
  | cons x xs ih =>
    simp only [List.flatMap_cons, List.length_cons, decCount, List.append_assoc]
    rw [h x (xs.flatMap enc ++ rest), Option.some_bind]
    simp [ih]

theorem decListBy_encListBy
    (enc : α → List Nat) (dec : List Nat → Option (α × List Nat))
    (h : ∀ x rest, dec (enc x ++ rest) = some (x, rest))
    (xs : List α) (rest : List Nat) :
    decListBy dec (encListBy enc xs ++ rest) = some (xs, rest) := by
  simp only [encListBy, decListBy, List.append_assoc]
  rw [decNat_encNat, Option.some_bind]
  exact decCount_encBy enc dec h xs rest

theorem decSegment_encSegment (s : Segment) (rest : List Nat) :
    decSegment (encSegment s ++ rest) = some (s, rest) := by
  obtain ⟨text, style⟩ := s
  cases style with
  | none =>
    simp only [encSegment, decSegment, List.append_assoc, List.cons_append,
      List.nil_append]
    rw [decListBy_encListBy encNat decNat decNat_encNat, Option.some_bind]
  | some st =>
    simp only [encSegment, decSegment, List.append_assoc, List.cons_append]
    rw [decListBy_encListBy encNat decNat decNat_encNat, Option.some_bind]
    simp only []
    rw [decListBy_encListBy encNat decNat decNat_encNat]
    rfl

theorem pickle_loads_dumps (segments : List Segment) :
    pickle_loads (pickle_dumps segments) = some segments := by
  simp only [pickle_loads, pickle_dumps]
  have := decListBy_encListBy encSegment decSegment decSegment_encSegment
    segments []
  rw [List.append_nil] at this
  rw [this]
  rfl

/-!  ## Round-trip of the base64 model -/

theorem b64val_b64chr_fin : ∀ s : Fin 64, b64val (b64chr s.val) = s.val := by
  decide

theorem b64val_b64chr (s : Nat) (h : s < 64) : b64val (b64chr s) = s :=
  b64val_b64chr_fin ⟨s, h⟩

theorem b64chr_ne_pad_fin : ∀ s : Fin 64, b64chr s.val ≠ '=' := by
  decide

theorem b64chr_ne_pad (s : Nat) (h : s < 64) : b64chr s ≠ '=' :=
  b64chr_ne_pad_fin ⟨s, h⟩

theorem b64decode_b64encode : ∀ bs : List Nat, (∀ b ∈ bs, b < 256) →
    b64decode (b64encode bs) = some bs
  | [], _ => rfl
  | [a], h => by
    have ha : a < 256 := h a (by simp)
    simp [b64encode, b64decode,
      b64val_b64chr (a / 4) (by omega),
      b64val_b64chr (a % 4 * 16) (by omega)]
    omega
  | [a, b], h => by
    have ha : a < 256 := h a (by simp)
    have hb : b < 256 := h b (by simp)
    simp [b64encode, b64decode,
      b64chr_ne_pad (b % 16 * 4) (by omega),
      b64val_b64chr (a / 4) (by omega),
      b64val_b64chr (a % 4 * 16 + b / 16) (by omega),
      b64val_b64chr (b % 16 * 4) (by omega)]
    omega
  | a :: b :: c :: rest, h => by
    have ha : a < 256 := h a (by simp)
    have hb : b < 256 := h b (by simp)
    have hc : c < 256 := h c (by simp)
    have ih := b64decode_b64encode rest (fun x hx => h x (by simp [hx]))
    simp [b64encode, b64decode, ih,
      b64chr_ne_pad (b % 16 * 4 + c / 64) (by omega),
      b64chr_ne_pad (c % 64) (by omega),
      b64val_b64chr (a / 4) (by omega),
      b64val_b64chr (a % 4 * 16 + b / 16) (by omega),
      b64val_b64chr (b % 16 * 4 + c / 64) (by omega),
      b64val_b64chr (c % 64) (by omega)]
    omega

theorem encNat_byte (n : Nat) : ∀ b ∈ encNat n, b < 256 := by
  intro b hb
  simp only [encNat, List.mem_append, List.mem_replicate,
    List.mem_singleton] at hb
  rcases hb with ⟨_, rfl⟩ | rfl <;> omega

theorem encListBy_byte (enc : α → List Nat)
    (h : ∀ x, ∀ b ∈ enc x, b < 256) (xs : List α) :
    ∀ b ∈ encListBy enc xs, b < 256 := by
  intro b hb
  simp only [encListBy, List.mem_append, List.mem_flatMap] at hb
  rcases hb with hb | ⟨x, _, hb⟩
  · exact encNat_byte _ b hb
  · exact h x b hb

theorem encSegment_byte (s : Segment) : ∀ b ∈ encSegment s, b < 256 := by
  obtain ⟨text, style⟩ := s
  intro b hb
  cases style with
  | none =>
    simp only [encSegment, List.mem_append, List.mem_singleton] at hb
    rcases hb with hb | rfl
    · exact encListBy_byte encNat (fun x => encNat_byte x) text b hb
    · omega
  | some st =>
    simp only [encSegment, List.mem_append, List.mem_cons] at hb
    rcases hb with hb | rfl | hb
    · exact encListBy_byte encNat (fun x => encNat_byte x) text b hb
    · omega
    · exact encListBy_byte encNat (fun x => encNat_byte x) st b hb

theorem pickle_dumps_byte (segments : List Segment) :
    ∀ b ∈ pickle_dumps segments, b < 256 :=
  encListBy_byte encSegment (fun s => encSegment_byte s) segments

/-- C8: the segment encoder is exactly reversible — for every list of
segments, including the empty list, base64-decoding the encoded string
and unpickling reconstructs the original list. -/
theorem encode_segments_roundtrip (segments : List Segment) :
    decode_segments (_encode_segments segments) = some segments := by
  show (b64decode (b64encode (pickle_dumps segments))).bind pickle_loads
    = some segments
  rw [b64decode_b64encode _ (pickle_dumps_byte segments), Option.some_bind]
  exact pickle_loads_dumps segments

/-!  ## Case analysis of one `log` call -/

theorem log_step_full (c : DevtoolsClient) (q : PyQueue QueueItem)
    (objects : List Segment) (path : String) (lineno now : Nat)
    (hq : c.log_queue = some q) (hfull : ¬ q.qsize < q.maxsize) :
    c.log objects path lineno now =
      { c with consoleBuffer := [], spillover := c.spillover + 1 } := by
  simp only [PyQueue.qsize] at hfull
  simp [DevtoolsClient.log, DevtoolsClient.logTry, hq, PyQueue.put_nowait,
    if_neg hfull]

theorem log_step_ok_nospill (c : DevtoolsClient) (q : PyQueue QueueItem)
    (objects : List Segment) (path : String) (lineno now : Nat)
    (hq : c.log_queue = some q) (hroom : q.qsize < q.maxsize)
    (hs : c.spillover = 0) :
    c.log objects path lineno now =
      { c with consoleBuffer := [],
               log_queue := some { q with items :=
                 q.items ++ [logMsgItem c objects path lineno now] } } := by
  simp only [PyQueue.qsize] at hroom
  simp [DevtoolsClient.log, DevtoolsClient.logTry, hq, PyQueue.put_nowait,
    if_pos hroom, hs, logMsgItem]

theorem log_step_ok_notice (c : DevtoolsClient) (q : PyQueue QueueItem)
    (objects : List Segment) (path : String) (lineno now : Nat)
    (hq : c.log_queue = some q) (hmax : q.maxsize = LOG_QUEUE_MAXSIZE)
    (hroom2 : q.qsize + 2 ≤ LOG_QUEUE_MAXSIZE) (hs : 0 < c.spillover) :
    c.log objects path lineno now =
      { c with consoleBuffer := [],
               log_queue := some { q with items :=
                 q.items ++ [logMsgItem c objects path lineno now,
                             .msg (.client_spillover c.spillover)] },
               spillover := 0 } := by
  simp only [PyQueue.qsize, LOG_QUEUE_MAXSIZE] at hroom2
  have h1 : q.items.length < 512 := by omega
  have h2 : q.items.length + 1 < 512 := by omega
  simp [DevtoolsClient.log, DevtoolsClient.logTry, hq, PyQueue.put_nowait,
    PyQueue.qsize, logMsgItem, hs, hmax, LOG_QUEUE_MAXSIZE, h1, h2]

theorem log_step_ok_nonotice (c : DevtoolsClient) (q : PyQueue QueueItem)
    (objects : List Segment) (path : String) (lineno now : Nat)
    (hq : c.log_queue = some q) (hmax : q.maxsize = LOG_QUEUE_MAXSIZE)
    (hone : q.qsize + 1 = LOG_QUEUE_MAXSIZE) :
    c.log objects path lineno now =
      { c with consoleBuffer := [],
               log_queue := some { q with items :=
                 q.items ++ [logMsgItem c objects path lineno now] } } := by
  simp only [PyQueue.qsize, LOG_QUEUE_MAXSIZE] at hone
  have h1 : q.items.length < 512 := by omega
  have h2 : ¬ q.items.length + 1 < 512 := by omega
  simp [DevtoolsClient.log, DevtoolsClient.logTry, hq, PyQueue.put_nowait,
    PyQueue.qsize, logMsgItem, hmax, LOG_QUEUE_MAXSIZE, h1, h2]

/-!  ## Claim theorems -/

/-- C10: if `connect()` has never been called (`self.log_queue` is
`None`), a `log()` call still renders and encodes its arguments — the
console record buffer is extracted and cleared — but then silently
discards the message: nothing is enqueued, the spillover counter is
unchanged, and no exception reaches the caller. -/
theorem log_without_connect_discards (c : DevtoolsClient)
    (objects : List Segment) (path : String) (lineno now : Nat)
    (hq : c.log_queue = none) :
    c.log objects path lineno now = { c with consoleBuffer := [] } := by
  simp [DevtoolsClient.log, DevtoolsClient.logTry, hq]

theorem log_without_connect_discards_witness :
    DevtoolsClient.init.log [] "app.py" 5 0 =
      { DevtoolsClient.init with consoleBuffer := [] } :=
  log_without_connect_discards DevtoolsClient.init [] "app.py" 5 0 rfl

/-- C4: a `log()` call never suspends or blocks its caller and never
raises: the embedding is a total state function (it is built from the
non-suspending `put_nowait` only, and the sole exception the `try:` body
can raise — `QueueFull`, explicit in `logTry` — is caught by the
handler); a full queue is absorbed by incrementing the spillover
counter, leaving the queue itself unchanged. -/
theorem log_total_and_absorbs_overflow (c : DevtoolsClient)
    (objects : List Segment) (path : String) (lineno now : Nat) :
    (∃ c' : DevtoolsClient, c.log objects path lineno now = c') ∧
    (∀ q : PyQueue QueueItem, c.log_queue = some q → q.maxsize ≤ q.qsize →
      c.log objects path lineno now =
        { c with consoleBuffer := [], spillover := c.spillover + 1 }) :=
  ⟨⟨_, rfl⟩, fun q hq hfull =>
    log_step_full c q objects path lineno now hq (by omega)⟩

set_option maxRecDepth 100000 in
theorem log_total_and_absorbs_overflow_witness :
    fullQueueClient.log [] "" 0 0 =
      { fullQueueClient with consoleBuffer := [],
                             spillover := fullQueueClient.spillover + 1 } :=
  (log_total_and_absorbs_overflow fullQueueClient [] "" 0 0).2
    ⟨LOG_QUEUE_MAXSIZE, List.replicate 512 (.msg dummyMsg)⟩ rfl (by decide)

set_option maxRecDepth 100000 in
/-- C1 as stated fails on the code: with the queue at capacity and
`spillover = 1`, draining exactly one slot and issuing one successful
`log()` call enqueues the record (the queue returns to capacity) but
does not enqueue any spillover notice and leaves the counter at 1 —
the notice is attempted only while `qsize() < LOG_QUEUE_MAXSIZE` holds
after the enqueue of the record itself. -/
theorem spillover_notice_after_one_drain_fails :
    (drainedOnceClient.log [] "" 0 0).spillover = 1 ∧
    spilloverNoticeCount (drainedOnceClient.log [] "" 0 0) = 0 ∧
    qsizeOf (drainedOnceClient.log [] "" 0 0) = some LOG_QUEUE_MAXSIZE := by
  decide

/-- C1 (amended): for a connected client with `spillover > 0`: a `log()`
call finding at least two free slots enqueues its record plus exactly
one spillover-notice record and resets the counter to 0; a call finding
exactly one free slot enqueues its record only (the notice cannot be
enqueued) and leaves the counter unchanged for a later attempt. -/
theorem spillover_notice_flush (c : DevtoolsClient) (q : PyQueue QueueItem)
    (objects : List Segment) (path : String) (lineno now : Nat)
    (hq : c.log_queue = some q) (hmax : q.maxsize = LOG_QUEUE_MAXSIZE)
    (hs : 0 < c.spillover) :
    (q.qsize + 2 ≤ LOG_QUEUE_MAXSIZE →
      (c.log objects path lineno now).spillover = 0 ∧
      spilloverNoticeCount (c.log objects path lineno now) =
        spilloverNoticeCount c + 1 ∧
      qsizeOf (c.log objects path lineno now) = some (q.qsize + 2)) ∧
    (q.qsize + 1 = LOG_QUEUE_MAXSIZE →
      (c.log objects path lineno now).spillover = c.spillover ∧
      spilloverNoticeCount (c.log objects path lineno now) =
        spilloverNoticeCount c ∧
      qsizeOf (c.log objects path lineno now) = some LOG_QUEUE_MAXSIZE) := by
  constructor
  · intro hroom2
    rw [log_step_ok_notice c q objects path lineno now hq hmax hroom2 hs]
    simp [spilloverNoticeCount, hq, qsizeOf, PyQueue.qsize,
      List.countP_append, isSpilloverItem, logMsgItem]
  · intro hone
    rw [log_step_ok_nonotice c q objects path lineno now hq hmax hone]
    simp only [PyQueue.qsize] at hone
    simp [spilloverNoticeCount, hq, qsizeOf, PyQueue.qsize,
      List.countP_append, isSpilloverItem, logMsgItem]
    omega

theorem spillover_notice_flush_witness :
    (({ freshClient with spillover := 1 } : DevtoolsClient).log
        [] "" 0 0).spillover = 0 ∧
    spilloverNoticeCount (({ freshClient with spillover := 1 } :
        DevtoolsClient).log [] "" 0 0) =
      spilloverNoticeCount { freshClient with spillover := 1 } + 1 ∧
    qsizeOf (({ freshClient with spillover := 1 } : DevtoolsClient).log
        [] "" 0 0) = some 2 :=
  (spillover_notice_flush { freshClient with spillover := 1 }
    ⟨LOG_QUEUE_MAXSIZE, []⟩ [] "" 0 0 rfl rfl (by decide)).1 (by decide)

theorem logN_fill (objects : List Segment) (path : String)
    (lineno now : Nat) :
    ∀ n, n ≤ LOG_QUEUE_MAXSIZE →
      ∃ items : List QueueItem, items.length = n ∧
        logN objects path lineno now freshClient n =
          withQueue freshClient items 0 := by
  intro n
  induction n with
  | zero => exact fun _ => ⟨[], rfl, rfl⟩
  | succ n ih =>
    intro hn
    obtain ⟨items, hlen, heq⟩ := ih (by omega)
    refine ⟨items ++ [logMsgItem (withQueue freshClient items 0)
      objects path lineno now], by simp [hlen], ?_⟩
    show (logN objects path lineno now freshClient n).log
        objects path lineno now = _
    rw [heq, log_step_ok_nospill _ ⟨LOG_QUEUE_MAXSIZE, items⟩
      objects path lineno now rfl
      (by simp only [PyQueue.qsize, hlen]
          simp only [LOG_QUEUE_MAXSIZE] at hn ⊢
          omega) rfl]
    rfl

theorem logN_overflow (objects : List Segment) (path : String)
    (lineno now : Nat) :
    ∀ k, ∃ items : List QueueItem, items.length = LOG_QUEUE_MAXSIZE ∧
      logN objects path lineno now freshClient (LOG_QUEUE_MAXSIZE + k) =
        withQueue freshClient items k := by
  intro k
  induction k with
  | zero =>
    obtain ⟨items, hlen, heq⟩ :=
      logN_fill objects path lineno now LOG_QUEUE_MAXSIZE (le_refl _)
    exact ⟨items, hlen, heq⟩
  | succ k ih =>
    obtain ⟨items, hlen, heq⟩ := ih
    refine ⟨items, hlen, ?_⟩
    show (logN objects path lineno now freshClient
        (LOG_QUEUE_MAXSIZE + k)).log objects path lineno now = _
    rw [heq, log_step_full _ ⟨LOG_QUEUE_MAXSIZE, items⟩
      objects path lineno now rfl (by simp [PyQueue.qsize, hlen])]
    rfl

/-- C2: starting from a freshly connected client (empty queue, spillover
0), issuing `capacity + K` `log()` calls (`K > 0`) with no draining
leaves the spillover counter at exactly `K` and the queue at capacity
512; no call blocks (each call is the total non-suspending function
`log`, which increments the counter exactly when `put_nowait` finds no
room). -/
theorem overflow_counts_spillover (objects : List Segment) (path : String)
    (lineno now K : Nat) (_hK : 0 < K) :
    (logN objects path lineno now freshClient
        (LOG_QUEUE_MAXSIZE + K)).spillover = K ∧
    qsizeOf (logN objects path lineno now freshClient
        (LOG_QUEUE_MAXSIZE + K)) = some LOG_QUEUE_MAXSIZE := by
  obtain ⟨items, hlen, heq⟩ := logN_overflow objects path lineno now K
  rw [heq]
  exact ⟨rfl, by simp [withQueue, qsizeOf, PyQueue.qsize, hlen]⟩

theorem overflow_counts_spillover_witness :
    (logN [] "" 0 0 freshClient (LOG_QUEUE_MAXSIZE + 1)).spillover = 1 ∧
    qsizeOf (logN [] "" 0 0 freshClient (LOG_QUEUE_MAXSIZE + 1)) =
      some LOG_QUEUE_MAXSIZE :=
  overflow_counts_spillover [] "" 0 0 1 (by decide)

theorem putAll_ok (xs : List α) : ∀ q : PyQueue α,
    q.items.length + xs.length ≤ q.maxsize →
    putAll q xs = { q with items := q.items ++ xs } := by
  induction xs with
  | nil => intro q h; simp [putAll]
  | cons x xs ih =>
    intro q h
    simp only [List.length_cons] at h
    have hroom : q.items.length < q.maxsize := by omega
    simp only [putAll, PyQueue.put_nowait, if_pos hroom]
    rw [ih { maxsize := q.maxsize, items := q.items ++ [x] }
      (by simp only [List.length_append, List.length_cons,
            List.length_nil]
          omega)]
    simp

theorem send_queued_logs_map_msg (recs : List OutMessage) :
    send_queued_logs (recs.map .msg) = recs := by
  induction recs with
  | nil => rfl
  | cons r rs ih => simp [send_queued_logs, ih]

/-- C3: for every `N ≤ capacity`, enqueueing `N` records into the fresh
bounded queue and draining it through the sender loop yields exactly the
records, in enqueue order (single-consumer FIFO). -/
theorem fifo_enqueue_drain (recs : List OutMessage)
    (h : recs.length ≤ LOG_QUEUE_MAXSIZE) :
    send_queued_logs (putAll ⟨LOG_QUEUE_MAXSIZE, []⟩ (recs.map .msg)).items
      = recs := by
  rw [putAll_ok _ _ (by simpa using h)]
  simpa using send_queued_logs_map_msg recs

theorem fifo_enqueue_drain_witness :
    send_queued_logs (putAll ⟨LOG_QUEUE_MAXSIZE, []⟩
      ([dummyMsg, .client_spillover 3].map .msg)).items =
      [dummyMsg, .client_spillover 3] :=
  fifo_enqueue_drain [dummyMsg, .client_spillover 3] (by decide)

/-- C5: when the sender dequeues the shutdown sentinel it exits the loop
without writing it to the socket (whatever follows the sentinel is not
written either); and during `disconnect`, after phase 1 appends the
sentinel, every record that was in the queue before the sentinel is
written to the socket, in order, before the sender exits. -/
theorem sender_stops_at_sentinel (pre : List OutMessage)
    (post : List QueueItem) (c : DevtoolsClient) :
    send_queued_logs (pre.map .msg ++ .shutdown :: post) = pre ∧
    ({ c with log_queue := some ⟨LOG_QUEUE_MAXSIZE, pre.map .msg⟩ } :
        DevtoolsClient).disconnect.2 = pre := by
  have key : ∀ (pre : List OutMessage) (post : List QueueItem),
      send_queued_logs (pre.map .msg ++ .shutdown :: post) = pre := by
    intro pre post
    induction pre with
    | nil => rfl
    | cons r rs ih => simpa [send_queued_logs] using ih
  refine ⟨key pre post, ?_⟩
  simpa [DevtoolsClient.disconnect] using key pre []

/-- C6 as stated fails on the code: a failed `connect()` on a fresh
client raises the error but leaves an open `aiohttp.ClientSession` and a
fresh queue assigned on the client — the state is not unchanged and the
session object is leaked. -/
theorem connect_failure_leaks_session :
    (DevtoolsClient.init.connect false).2 = true ∧
    (DevtoolsClient.init.connect false).1.session = some { closed := false } ∧
    (DevtoolsClient.init.connect false).1.log_queue.isSome = true ∧
    DevtoolsClient.init.session = none :=
  ⟨rfl, rfl, rfl, rfl⟩

/-- C6 (amended): a failed `connect()` raises `DevtoolsConnectionError`,
sets no websocket and spawns no task (so `is_connected` still reports
false on a fresh client), but it does leave a freshly allocated open
session object and a fresh empty queue assigned on the client. -/
theorem connect_failure_state (c : DevtoolsClient) :
    c.connect false =
      ({ c with
          session := some { closed := false },
          log_queue := some { maxsize := LOG_QUEUE_MAXSIZE, items := [] } },
       true) := rfl

/-- C7 as stated fails on the code: a malformed frame is not ignored —
it terminates the listener task via an uncaught exception. Concretely,
a malformed frame followed by a valid `server_info` frame stops the loop
at the malformed frame with an escaping `JSONDecodeError`, and the later
geometry update is never applied. -/
theorem malformed_frame_kills_listener :
    (DevtoolsClient.init.update_console [.text none, serverInfoFrame]).2 =
      some .jsonDecodeError ∧
    (DevtoolsClient.init.update_console
        [.text none, serverInfoFrame]).1.consoleWidth = Json.num 80 :=
  ⟨rfl, rfl⟩

/-- C7 (amended): a well-formed `server_info` frame sets the console
width and height from the payload; a well-formed frame of another type,
or a non-TEXT frame, is silently ignored and leaves the dimensions
unchanged; but a malformed TEXT frame — a body `json.loads` rejects, or
an envelope missing a required key (no `"type"` key; `server_info`
without `"payload"`, without `"width"`, or without `"height"`, the last
after the width has already been assigned) — raises an uncaught
exception that terminates the listener task. -/
theorem listener_frame_handling (c : DevtoolsClient) (w hgt : Json)
    (rest : List (String × Json)) (s : String) (frames : List WSMessage)
    (j : Json) :
    c.processMessage (.text (some (.obj [("type", .str "server_info"),
        ("payload", .obj [("width", w), ("height", hgt)])]))) =
      ({ c with consoleWidth := w, consoleHeight := hgt }, none) ∧
    (s ≠ "server_info" →
      c.processMessage (.text (some (.obj (("type", .str s) :: rest)))) =
        (c, none)) ∧
    c.processMessage .nonText = (c, none) ∧
    c.update_console (.text none :: frames) = (c, some .jsonDecodeError) ∧
    (j.lookup "type" = none →
      c.update_console (.text (some j) :: frames) = (c, some .keyError)) ∧
    c.update_console
        (.text (some (.obj [("type", .str "server_info")])) :: frames) =
      (c, some .keyError) ∧
    c.update_console
        (.text (some (.obj [("type", .str "server_info"),
          ("payload", .obj [])])) :: frames) =
      (c, some .keyError) ∧
    c.update_console
        (.text (some (.obj [("type", .str "server_info"),
          ("payload", .obj [("width", w)])])) :: frames) =
      ({ c with consoleWidth := w }, some .keyError) := by
  refine ⟨rfl, ?_, rfl, rfl, ?_, rfl, rfl, rfl⟩
  · intro hs
    simp [DevtoolsClient.processMessage, Json.lookup, hs]
  · intro hj
    simp [DevtoolsClient.update_console, DevtoolsClient.processMessage, hj]

theorem listener_frame_handling_witness :
    DevtoolsClient.init.processMessage
        (.text (some (.obj [("type", Json.str "other")]))) =
      (DevtoolsClient.init, none) ∧
    DevtoolsClient.init.update_console [.text (some (Json.obj []))] =
      (DevtoolsClient.init, some .keyError) :=
  ⟨(listener_frame_handling DevtoolsClient.init Json.null Json.null []
      "other" [] (Json.obj [])).2.1 (by decide),
   (listener_frame_handling DevtoolsClient.init Json.null Json.null []
      "other" [] (Json.obj [])).2.2.2.2.1 rfl⟩

/-- C9: `is_connected` is true iff a session exists and both the session
and the websocket exist and report open; in particular it is false on a
fresh client (before any `connect()`), false after `disconnect()`, and
false once the websocket or the session has been closed from either
side. -/
theorem is_connected_characterization (c : DevtoolsClient) :
    (c.is_connected = true ↔
      ∃ s w, c.session = some s ∧ c.websocket = some w ∧
        s.closed = false ∧ w.closed = false) ∧
    DevtoolsClient.init.is_connected = false ∧
    c.disconnect.1.is_connected = false ∧
    ({ c with
        websocket := c.websocket.map (fun w => { w with closed := true }) } :
      DevtoolsClient).is_connected = false ∧
    ({ c with
        session := c.session.map (fun s => { s with closed := true }) } :
      DevtoolsClient).is_connected = false := by
  refine ⟨?_, rfl, ?_, ?_, ?_⟩
  · cases hs : c.session with
    | none => simp [DevtoolsClient.is_connected, hs]
    | some s =>
      cases hw : c.websocket with
      | none => simp [DevtoolsClient.is_connected, hs, hw]
      | some w => simp [DevtoolsClient.is_connected, hs, hw]
  · simp only [DevtoolsClient.disconnect]
    cases c.session <;> cases c.websocket <;>
      simp [DevtoolsClient.is_connected]
  · cases c.session <;> cases c.websocket <;>
      simp [DevtoolsClient.is_connected]
  · cases c.session <;> cases c.websocket <;>
      simp [DevtoolsClient.is_connected]

theorem is_connected_characterization_witness :
    freshClient.is_connected = true :=
  (is_connected_characterization freshClient).1.mpr
    ⟨{ closed := false }, { closed := false }, rfl, rfl, rfl, rfl⟩
